import Mathlib

/-!
Verification of the session/step orchestration core of the DeepThink Canvas
training tool: the per-step state machine, the timeout/fallback policy of the
external-call wrapper, and the session-completion rule.

Shallow embedding conventions:
* `ReasoningRow`, `RowStatus`, `Challenge`, `SessionResult` mirror `types.ts`.
  Row ids are modelled as naturals (the source uses UUID strings; only
  equality and freshness of ids matter to the orchestration logic).
* An external asynchronous call is modelled by its settlement behaviour
  (`OpOutcome`): it resolves at some time with a value, rejects at some time,
  or never settles.  The value carried by a resolution is the already-parsed
  response (`none` models a response with empty `response.text`); a JSON
  parse failure inside the wrapped closure is a rejection of that closure.
* React `setRows` updates are modelled as pure functions on an `AppState`
  record; the `async` bodies of `submitRow` and `finishSession` are modelled
  by their net effect on the state, with the intermediate "Analyzing" state
  exposed separately (`submitRowStart`) since the UI renders it.
* Prompt strings sent to the external model are not modelled, except for the
  selection of rows that enter the evaluation transcript (`transcriptRows`),
  which claims quantify over.
-/

namespace DeepThink

/-- Lifecycle state of a reasoning row (`types.ts`, `RowStatus`). -/
inductive RowStatus where
  | Active
  | Analyzing
  | Completed
  | Locked
deriving DecidableEq, Repr

/-- Difficulty tier of a challenge (`types.ts`, `Challenge.difficulty`). -/
inductive Difficulty where
  | Junior
  | Senior
  | Staff
  | Principal
deriving DecidableEq, Repr

/-- One reasoning step (`types.ts`, `ReasoningRow`). -/
structure ReasoningRow where
  id : Nat
  stepNumber : Nat
  content : String
  aiInterrogation : Option String
  status : RowStatus
  depthScore : Option Int
deriving DecidableEq, Repr

/-- Challenge record (`types.ts`, `Challenge`). -/
structure Challenge where
  id : String
  title : String
  description : String
  difficulty : Difficulty
  context : String
deriving DecidableEq, Repr

/-- Final evaluation record (`types.ts`, `SessionResult`). -/
structure SessionResult where
  score : Int
  summary : String
  strengths : List String
  weaknesses : List String
deriving DecidableEq, Repr

/-- Critique returned by `interrogateRow` (`geminiService.ts` lines 109,
152-155): the interrogation text and a depth score. -/
structure Analysis where
  text : String
  depthScore : Int
deriving DecidableEq, Repr

/-! ## Timeout-guarded call wrapper (`geminiService.ts` lines 41-59) -/

/-- Settlement behaviour of an asynchronous operation: it resolves at time
`t` with a value, rejects at time `t`, or never settles. -/
inductive OpOutcome (T : Type) where
  | resolves (t : Nat) (v : T)
  | rejects (t : Nat)
  | pending
deriving DecidableEq

/-- Post-composition on the value an operation resolves with (models the
body of the wrapped `async` closure transforming the raw response). -/
def OpOutcome.mapVal {A B : Type} (f : A → B) : OpOutcome A → OpOutcome B
  | .resolves t v => .resolves t (f v)
  | .rejects t => .rejects t
  | .pending => .pending

/-- Events that can reach the wrapper promise of `withTimeout`: the
`setTimeout` timer firing, the wrapped operation resolving with a value, or
the wrapped operation rejecting. -/
inductive RaceEvent (T : Type) where
  | timerFire
  | opResolve (v : T)
  | opReject
deriving DecidableEq

/-- One `resolve` call on a JS promise: only the first settlement sticks;
later calls are ignored. -/
def resolveOnce {T : Type} (st : Option T) (v : T) : Option T :=
  match st with
  | some w => some w
  | none => some v

/-- Effect of one event on the wrapper promise (`geminiService.ts` lines
43-57): the timer resolves the fallback, a resolution of the operation
resolves its value, a rejection of the operation resolves the fallback. -/
def handleEvent {T : Type} (fallback : T) (st : Option T) (e : RaceEvent T) :
    Option T :=
  match e with
  | .timerFire => resolveOnce st fallback
  | .opResolve v => resolveOnce st v
  | .opReject => resolveOnce st fallback

/-- Chronological list of events reaching the wrapper promise.  The timer is
set for `ms`; a settlement of the operation at time `t ≤ ms` runs first (a
promise continuation is a microtask, which runs before a macrotask due at
the same instant) and its handler calls `clearTimeout`, so the timer event
never occurs; after the timer has fired, `clearTimeout` is a no-op and the
operation's late settlement still reaches the promise. -/
def raceEvents {T : Type} (op : OpOutcome T) (ms : Nat) : List (RaceEvent T) :=
  match op with
  | .resolves t v => if t ≤ ms then [.opResolve v] else [.timerFire, .opResolve v]
  | .rejects t => if t ≤ ms then [.opReject] else [.timerFire, .opReject]
  | .pending => [.timerFire]

/-- Value observed by the caller of `withTimeout(promise, ms, fallback)`
(`geminiService.ts` lines 41-59): the wrapper promise after all events,
`none` meaning it never settled. -/
def withTimeout {T : Type} (op : OpOutcome T) (ms : Nat) (fallback : T) :
    Option T :=
  (raceEvents op ms).foldl (handleEvent fallback) none

/-- Total version of `withTimeout`: the race always settles (the theorem
for claim C1 shows the result is never `none`; `getD` only realizes the
option). -/
def withTimeoutValue {T : Type} (op : OpOutcome T) (ms : Nat) (fallback : T) :
    T :=
  (withTimeout op ms fallback).getD fallback

/-- C1: the timeout wrapper returns the operation's value when it resolves
within the deadline, returns exactly the fallback when the operation rejects
or outruns the deadline (even though the operation later resolves), always
settles, and a settled wrapper promise is never altered by a later event. -/
theorem c1_timeout_guard {T : Type} (fallback : T) (ms : Nat) :
    (∀ t v, t ≤ ms → withTimeout (OpOutcome.resolves t v) ms fallback = some v)
    ∧ (∀ t v, ms < t →
        withTimeout (OpOutcome.resolves t v) ms fallback = some fallback)
    ∧ (∀ t, withTimeout (OpOutcome.rejects t) ms fallback = some fallback)
    ∧ withTimeout (OpOutcome.pending (T := T)) ms fallback = some fallback
    ∧ (∀ op : OpOutcome T, withTimeout op ms fallback ≠ none)
    ∧ (∀ (w : T) (e : RaceEvent T), handleEvent fallback (some w) e = some w) := by
  refine ⟨?_, ?_, ?_, ?_, ?_, ?_⟩
  · intro t v h
    simp [withTimeout, raceEvents, h, handleEvent, resolveOnce]
  · intro t v h
    simp [withTimeout, raceEvents, Nat.not_le.mpr h, handleEvent, resolveOnce]
  · intro t
    by_cases h : t ≤ ms <;>
      simp [withTimeout, raceEvents, h, handleEvent, resolveOnce]
  · simp [withTimeout, raceEvents, handleEvent, resolveOnce]
  · intro op
    cases op with
    | resolves t v =>
        by_cases h : t ≤ ms <;>
          simp [withTimeout, raceEvents, h, handleEvent, resolveOnce]
    | rejects t =>
        by_cases h : t ≤ ms <;>
          simp [withTimeout, raceEvents, h, handleEvent, resolveOnce]
    | pending =>
        simp [withTimeout, raceEvents, handleEvent, resolveOnce]
  · intro w e
    cases e <;> simp [handleEvent, resolveOnce]

/-- Witness for C1 at concrete inputs: a resolution at time 5 beats the
10-tick deadline and is returned; a resolution at time 15 does not, and the
fallback 0 is returned instead. -/
theorem c1_timeout_guard_witness :
    withTimeout (OpOutcome.resolves 5 (1 : Nat)) 10 0 = some 1
    ∧ withTimeout (OpOutcome.resolves 15 (1 : Nat)) 10 0 = some 0
    ∧ withTimeout (OpOutcome.rejects (T := Nat) 3) 10 0 = some 0 :=
  ⟨(c1_timeout_guard 0 10).1 5 1 (by decide),
   (c1_timeout_guard 0 10).2.1 15 1 (by decide),
   (c1_timeout_guard 0 10).2.2.1 3⟩

/-! ## External-call services (`geminiService.ts`) -/

/-- Handle to the external generative-AI client (`GoogleGenAI`); only its
constructibility matters to the orchestration logic. -/
structure AIClient where
  apiKey : String
deriving DecidableEq, Repr

/-- Client construction (`geminiService.ts` lines 4-13): throws when
`process.env.API_KEY` is absent. -/
def getAI (apiKey : Option String) : Except String AIClient :=
  match apiKey with
  | none => .error "API Key not found"
  | some k => .ok ⟨k⟩

/-- Hardcoded fallback challenge catalog (`geminiService.ts` lines 16-38). -/
def FALLBACK_CHALLENGES : List Challenge :=
  [ { id := "1"
      title := "Scale a Notification System"
      description := "Design a notification service delivering 10M pushes/minute with <1s latency."
      difficulty := .Senior
      context := "High throughput, latency sensitive, fan-out problems. Consider broker choices, worker pools, and deduplication." }
  , { id := "2"
      title := "Optimize LLM Inference"
      description := "Optimize inference for a 70B parameter model on 8x A100 GPUs."
      difficulty := .Staff
      context := "GPU memory bandwidth, tensor parallelism, quantization (FP8 vs INT4), and KV cache management." }
  , { id := "3"
      title := "Distributed Counter"
      description := "Design a distributed counter that is strongly consistent and handles massive write contention."
      difficulty := .Principal
      context := "CAP theorem limits, CRDTs vs Global Locking, database sharding strategies, and conflict resolution." } ]

/-- Challenge listing (`geminiService.ts` lines 61-103).  The wrapped
closure returns the parsed response when `response.text` is non-empty and
the fallback catalog otherwise; the surrounding `try`/`catch` absorbs the
client-construction throw into the fallback catalog.  The prompt string is
not modelled; `call` is the settlement behaviour of the `generateContent`
call (`none` models an empty `response.text`). -/
def getSuggestedChallenges (apiKey : Option String)
    (call : OpOutcome (Option (List Challenge))) : List Challenge :=
  match getAI apiKey with
  | .error _ => FALLBACK_CHALLENGES
  | .ok _ =>
      withTimeoutValue
        (call.mapVal fun r => r.getD FALLBACK_CHALLENGES) 1500 FALLBACK_CHALLENGES

/-- Fallback critique (`geminiService.ts` lines 127-130). -/
def fallbackResponse : Analysis :=
  { text := "Can you elaborate on the specific trade-offs of this choice?"
    depthScore := 5 }

/-- Per-step critique call (`geminiService.ts` lines 105-162).  `getAI` is
invoked before the timeout wrapper, so a construction failure rejects the
whole call; once a client exists the wrapper makes the call total.  The
prompt built from the current input, the `history.slice(-3)` window and the
challenge is not modelled (it only feeds the external model); `call` is the
settlement behaviour of the `generateContent` call, its value the parsed
`{interrogation, depthScore}` response (`none` models empty
`response.text`). -/
def interrogateRow (apiKey : Option String)
    (call : OpOutcome (Option Analysis)) : Except String Analysis :=
  match getAI apiKey with
  | .error e => .error e
  | .ok _ =>
      .ok (withTimeoutValue (call.mapVal fun r => r.getD fallbackResponse)
        4000 fallbackResponse)

/-- Fallback evaluation result (`geminiService.ts` lines 178-183). -/
def fallbackResult : SessionResult :=
  { score := 0
    summary := "Could not generate report due to timeout or error."
    strengths := ["N/A"]
    weaknesses := ["N/A"] }

/-- Rows whose `(content, critique)` pair enters the evaluation transcript
(`geminiService.ts` line 170, `rows.slice(-20)`): the last 20 rows, or all
of them when there are at most 20. -/
def transcriptRows (rows : List ReasoningRow) : List ReasoningRow :=
  rows.drop (rows.length - 20)

/-- Transcript string sent to the evaluator (`geminiService.ts` line 170);
a `null` critique prints as the string `"null"` in the JS template. -/
def transcript (rows : List ReasoningRow) : String :=
  String.intercalate "\n\n" ((transcriptRows rows).map fun r =>
    "User: " ++ r.content ++ "\nAI: " ++ r.aiInterrogation.getD "null")

/-- Session evaluation call (`geminiService.ts` lines 164-212).  Unlike
challenge listing there is no `try`/`catch` around `getAI`, so a
construction failure rejects the whole call and propagates to the caller;
once a client exists the timeout wrapper makes the call total.  `call` is
the settlement behaviour of the `generateContent` call, its value the
parsed `SessionResult` (`none` models empty `response.text`). -/
def evaluateSession (apiKey : Option String) (rows : List ReasoningRow)
    (challenge : Challenge) (call : OpOutcome (Option SessionResult)) :
    Except String SessionResult :=
  match getAI apiKey with
  | .error e => .error e
  | .ok _ =>
      .ok (withTimeoutValue (call.mapVal fun r => r.getD fallbackResult)
        8000 fallbackResult)

/-! ## Session orchestrator (`App.tsx`, lines 271-366 of the shipped
revision) -/

/-- React state owned by `App` that the orchestration logic touches
(`App.tsx` lines 272-279); `isLoading` covers both the initial challenge
load and the grading phase. -/
structure AppState where
  activeChallenge : Option Challenge
  rows : List ReasoningRow
  sessionResult : Option SessionResult
  isLoading : Bool
deriving DecidableEq, Repr

/-- State before any session is started. -/
def initState : AppState :=
  { activeChallenge := none, rows := [], sessionResult := none
    isLoading := false }

/-- Shape of every row update in `App.tsx`:
`setRows(prev => prev.map(row => row.id === id ? {...row, ...} : row))`. -/
def updateById (rows : List ReasoningRow) (id : Nat)
    (f : ReasoningRow → ReasoningRow) : List ReasoningRow :=
  rows.map fun r => if r.id = id then f r else r

/-- Object spread `{...r, status}` used by `submitRow` to lock, complete or
revert a row. -/
def setStatus (st : RowStatus) (r : ReasoningRow) : ReasoningRow :=
  { r with status := st }

/-- Object spread `{...r, content}` used by `updateRow`. -/
def setContent (content : String) (r : ReasoningRow) : ReasoningRow :=
  { r with content := content }

/-- Object spread used by `submitRow` on a settled critique (`App.tsx`
lines 327-332): complete the row and attach the critique text and score. -/
def completeWith (a : Analysis) (r : ReasoningRow) : ReasoningRow :=
  { r with status := RowStatus.Completed
           aiInterrogation := some a.text
           depthScore := some a.depthScore }

/-- Successor row appended after a completed step (`App.tsx` lines
334-340). -/
def nextRow (fresh : Nat) (stepNumber : Nat) : ReasoningRow :=
  { id := fresh, stepNumber := stepNumber, content := ""
    aiInterrogation := none, status := RowStatus.Active
    depthScore := none }

/-- `startChallenge` (`App.tsx` lines 298-310): select a challenge, clear
any previous result, and create step #1 open for editing.  `fresh` models
the `safeUUID()` draw. -/
def startChallenge (s : AppState) (c : Challenge) (fresh : Nat) : AppState :=
  { s with
    activeChallenge := some c
    sessionResult := none
    rows := [nextRow fresh 1] }

/-- `updateRow` (`App.tsx` lines 312-314): overwrite the content of the
identified row, whatever its state. -/
def updateRow (s : AppState) (id : Nat) (content : String) : AppState :=
  { s with rows := updateById s.rows id (setContent content) }

/-- Guarded prefix of `submitRow` (`App.tsx` lines 316-321): the row must
exist, a challenge must be active, and the row must be `Active`; then the
row is locked into the `Analyzing` state while the critique call is in
flight.  This is the state the UI renders between submission and
settlement. -/
def submitRowStart (s : AppState) (id : Nat) : AppState :=
  match s.rows.find? (fun r => r.id = id), s.activeChallenge with
  | some row, some _ =>
      if row.status = RowStatus.Active then
        { s with rows := updateById s.rows id (setStatus .Analyzing) }
      else s
  | _, _ => s

/-- Net effect of `submitRow` (`App.tsx` lines 316-349), second component
recording whether `interrogateRow` was invoked.  On a successful (or
fallback) critique the row becomes `Completed` with the returned text and
score attached and a fresh `Active` row with the next step number is
appended; if the call rejects (client construction failed) the row reverts
to `Active`. -/
def submitRow (s : AppState) (id : Nat) (fresh : Nat)
    (apiKey : Option String) (call : OpOutcome (Option Analysis)) :
    AppState × Bool :=
  match s.rows.find? (fun r => r.id = id), s.activeChallenge with
  | some row, some _ =>
      if row.status = RowStatus.Active then
        match interrogateRow apiKey call with
        | .ok analysis =>
            ({ s with rows :=
                (updateById (updateById s.rows id (setStatus .Analyzing)) id
                    (completeWith analysis) ++
                  [nextRow fresh (row.stepNumber + 1)]) }, true)
        | .error _ =>
            ({ s with rows :=
                (updateById (updateById s.rows id (setStatus .Analyzing)) id
                  (setStatus .Active)) }, true)
      else (s, false)
  | _, _ => (s, false)

/-- Rows selected for grading (`App.tsx` line 355): every `Completed` row,
plus any row whose content is non-blank. -/
def validRowsOf (rows : List ReasoningRow) : List ReasoningRow :=
  rows.filter fun r =>
    r.status = RowStatus.Completed || decide (0 < r.content.trim.length)

/-- Net effect of `finishSession` (`App.tsx` lines 351-366): with a
challenge active, evaluate the graded rows; on a returned result store it,
on a rejection (client construction failed) alert and leave the result
absent; either way the loading flag ends cleared. -/
def finishSession (s : AppState) (apiKey : Option String)
    (call : OpOutcome (Option SessionResult)) : AppState :=
  match s.activeChallenge with
  | none => s
  | some challenge =>
      match evaluateSession apiKey (validRowsOf s.rows) challenge call with
      | .ok result => { s with sessionResult := some result, isLoading := false }
      | .error _ => { s with isLoading := false }

/-- Whether the Submit Session button is operable (`App.tsx` line 486:
`disabled={isLoading || rows.filter(r => r.status === RowStatus.Completed).length < 2}`). -/
def finishEnabled (s : AppState) : Bool :=
  !s.isLoading &&
    decide (2 ≤ (s.rows.filter fun r => r.status = RowStatus.Completed).length)

/-- Submission pathway from the UI (`WorksheetRow.tsx` lines 35-42,
`handleKeyDown`): an Enter keypress without Shift submits the row only when
its trimmed content is non-empty; otherwise nothing happens.  Second
component as in `submitRow`: whether `interrogateRow` was invoked. -/
def handleKeyDown (s : AppState) (row : ReasoningRow) (enter shift : Bool)
    (fresh : Nat) (apiKey : Option String)
    (call : OpOutcome (Option Analysis)) : AppState × Bool :=
  if enter && !shift then
    if 0 < row.content.trim.length then submitRow s row.id fresh apiKey call
    else (s, false)
  else (s, false)

/-- Whether the row's textarea is disabled (`WorksheetRow.tsx` lines 44 and
91: `isLocked`). -/
def isLocked (row : ReasoningRow) : Bool :=
  row.status = RowStatus.Completed || row.status = RowStatus.Analyzing ||
    row.status = RowStatus.Locked

/-- Content-edit pathway from the UI (`WorksheetRow.tsx` lines 86-98): the
textarea is rendered with `disabled={isLocked}`, and a disabled input fires
no `onChange`, so `updateRow` is reached only for an unlocked row. -/
def uiEditRow (s : AppState) (row : ReasoningRow) (text : String) : AppState :=
  if isLocked row then s else updateRow s row.id text

/-! ## Helper lemmas about targeted row updates -/

lemma map_updateById {α : Type} (g : ReasoningRow → α)
    (rows : List ReasoningRow) (i : Nat) (f : ReasoningRow → ReasoningRow)
    (h : ∀ r, g (f r) = g r) :
    (updateById rows i f).map g = rows.map g := by
  simp only [updateById, List.map_map]
  refine List.map_congr_left fun r _ => ?_
  by_cases hr : r.id = i <;> simp [Function.comp, hr, h]

lemma length_updateById (rows : List ReasoningRow) (i : Nat)
    (f : ReasoningRow → ReasoningRow) :
    (updateById rows i f).length = rows.length := by
  simp [updateById]

lemma dropLast_updateById (rows : List ReasoningRow) (i : Nat)
    (f : ReasoningRow → ReasoningRow) :
    (updateById rows i f).dropLast = updateById rows.dropLast i f := by
  simp [updateById, List.map_dropLast]

lemma mem_updateById {r' : ReasoningRow} {rows : List ReasoningRow} {i : Nat}
    {f : ReasoningRow → ReasoningRow} :
    r' ∈ updateById rows i f ↔
      ∃ r ∈ rows, (if r.id = i then f r else r) = r' := by
  simp [updateById, List.mem_map]

lemma updateById_updateById (rows : List ReasoningRow) (i : Nat)
    (f g : ReasoningRow → ReasoningRow) (hf : ∀ r, (f r).id = r.id) :
    updateById (updateById rows i f) i g =
      updateById rows i fun r => g (f r) := by
  simp only [updateById, List.map_map]
  refine List.map_congr_left fun r _ => ?_
  by_cases hr : r.id = i
  · simp [Function.comp, hr, hf]
  · simp [Function.comp, hr]

lemma updateById_eq_self (rows : List ReasoningRow) (i : Nat)
    (f : ReasoningRow → ReasoningRow) (h : i ∉ rows.map (·.id)) :
    updateById rows i f = rows := by
  induction rows with
  | nil => rfl
  | cons a l ih =>
      simp only [List.map_cons, List.mem_cons] at h
      push_neg at h
      simp only [updateById, List.map_cons]
      rw [if_neg fun he => h.1 he.symm]
      exact congrArg (List.cons a) (ih h.2)

/-- Invariant of the row list maintained by the orchestrator: step numbers
are exactly `1..N` in order, every row before the last is `Completed`, and
row ids are pairwise distinct. -/
def StepInv (rows : List ReasoningRow) : Prop :=
  rows.map (·.stepNumber) = List.range' 1 rows.length
  ∧ (∀ r ∈ rows.dropLast, r.status = RowStatus.Completed)
  ∧ (rows.map (·.id)).Nodup

lemma active_row_is_last {rows : List ReasoningRow} {row : ReasoningRow}
    (hmem : row ∈ rows) (hact : row.status ≠ RowStatus.Completed)
    (hdl : ∀ r ∈ rows.dropLast, r.status = RowStatus.Completed) :
    rows.dropLast ++ [row] = rows := by
  have hne : rows ≠ [] := List.ne_nil_of_mem hmem
  have hsplit := List.dropLast_append_getLast hne
  have hmem' : row ∈ rows.dropLast ++ [rows.getLast hne] := by
    rw [hsplit]; exact hmem
  rcases List.mem_append.1 hmem' with h1 | h2
  · exact absurd (hdl _ h1) hact
  · rw [List.mem_singleton.1 h2]; exact hsplit

lemma last_stepNumber {rows : List ReasoningRow} {row : ReasoningRow}
    (hsplit : rows.dropLast ++ [row] = rows)
    (hp : rows.map (·.stepNumber) = List.range' 1 rows.length) :
    row.stepNumber = rows.length := by
  have hlen : rows.dropLast.length + 1 = rows.length := by
    simpa using congrArg List.length hsplit
  have h1 : rows.dropLast.map (·.stepNumber) ++ [row.stepNumber] =
      List.range' 1 (rows.dropLast.length + 1) := by
    calc rows.dropLast.map (·.stepNumber) ++ [row.stepNumber]
        = (rows.dropLast ++ [row]).map (·.stepNumber) := by simp
      _ = rows.map (·.stepNumber) := by rw [hsplit]
      _ = List.range' 1 rows.length := hp
      _ = List.range' 1 (rows.dropLast.length + 1) := by rw [hlen]
  rw [List.range'_1_concat] at h1
  have h2 := (List.append_inj h1 (by simp)).2
  simp only [List.cons.injEq, and_true] at h2
  omega

lemma last_id_not_mem {rows : List ReasoningRow} {row : ReasoningRow}
    (hsplit : rows.dropLast ++ [row] = rows)
    (hnd : (rows.map (·.id)).Nodup) :
    row.id ∉ rows.dropLast.map (·.id) := by
  have h2 : ((rows.dropLast ++ [row]).map (·.id)).Nodup := by
    rw [hsplit]; exact hnd
  rw [List.map_append] at h2
  have hdisj := List.disjoint_of_nodup_append h2
  intro hm
  exact hdisj hm (by simp)

lemma completed_of_mem_updateById {rows : List ReasoningRow}
    {row : ReasoningRow} {f : ReasoningRow → ReasoningRow}
    (hsplit : rows.dropLast ++ [row] = rows)
    (hdl : ∀ r ∈ rows.dropLast, r.status = RowStatus.Completed)
    (hf : ∀ r, (f r).status = RowStatus.Completed) :
    ∀ r ∈ updateById rows row.id f, r.status = RowStatus.Completed := by
  intro r hr
  rcases mem_updateById.1 hr with ⟨r0, h0, heq⟩
  by_cases hid : r0.id = row.id
  · rw [← heq, if_pos hid]; exact hf r0
  · rw [← heq, if_neg hid]
    have hm : r0 ∈ rows.dropLast ++ [row] := by rw [hsplit]; exact h0
    rcases List.mem_append.1 hm with h1 | h1
    · exact hdl _ h1
    · exact absurd (by rw [List.mem_singleton.1 h1]) hid

lemma dropLast_completed_updateById {rows : List ReasoningRow}
    {row : ReasoningRow} {f : ReasoningRow → ReasoningRow}
    (hsplit : rows.dropLast ++ [row] = rows)
    (hdl : ∀ r ∈ rows.dropLast, r.status = RowStatus.Completed)
    (hnd : (rows.map (·.id)).Nodup) :
    ∀ r ∈ (updateById rows row.id f).dropLast,
      r.status = RowStatus.Completed := by
  have hnotin := last_id_not_mem hsplit hnd
  intro r hr
  rw [dropLast_updateById] at hr
  rcases mem_updateById.1 hr with ⟨r0, h0, heq⟩
  have hid : r0.id ≠ row.id := fun he =>
    hnotin (he ▸ List.mem_map_of_mem (·.id) h0)
  rw [← heq, if_neg hid]
  exact hdl _ h0

lemma stepInv_updateById_preserve {rows : List ReasoningRow} {i : Nat}
    {f : ReasoningRow → ReasoningRow} (h : StepInv rows)
    (h1 : ∀ r, (f r).stepNumber = r.stepNumber)
    (h2 : ∀ r, (f r).status = r.status)
    (h3 : ∀ r, (f r).id = r.id) :
    StepInv (updateById rows i f) := by
  obtain ⟨hp, hd, hn⟩ := h
  refine ⟨?_, ?_, ?_⟩
  · rw [map_updateById _ _ _ _ h1, length_updateById, hp]
  · intro r hr
    rw [dropLast_updateById] at hr
    rcases mem_updateById.1 hr with ⟨r0, h0, heq⟩
    have hc := hd r0 h0
    by_cases hid : r0.id = i
    · rw [← heq, if_pos hid, h2]; exact hc
    · rw [← heq, if_neg hid]; exact hc
  · rw [map_updateById _ _ _ _ h3]; exact hn

lemma stepInv_submit_touch {rows : List ReasoningRow} {row : ReasoningRow}
    {f : ReasoningRow → ReasoningRow} (hinv : StepInv rows)
    (hmem : row ∈ rows) (hact : row.status ≠ RowStatus.Completed)
    (h1 : ∀ r, (f r).stepNumber = r.stepNumber)
    (h3 : ∀ r, (f r).id = r.id) :
    StepInv (updateById rows row.id f) := by
  obtain ⟨hp, hd, hn⟩ := hinv
  have hsplit := active_row_is_last hmem hact hd
  refine ⟨?_, dropLast_completed_updateById hsplit hd hn, ?_⟩
  · rw [map_updateById _ _ _ _ h1, length_updateById, hp]
  · rw [map_updateById _ _ _ _ h3]; exact hn

lemma stepInv_submit_ok {rows : List ReasoningRow} {row : ReasoningRow}
    {f : ReasoningRow → ReasoningRow} (fresh : Nat) (hinv : StepInv rows)
    (hmem : row ∈ rows) (hact : row.status ≠ RowStatus.Completed)
    (h1 : ∀ r, (f r).stepNumber = r.stepNumber)
    (h3 : ∀ r, (f r).id = r.id)
    (hc : ∀ r, (f r).status = RowStatus.Completed)
    (hfresh : fresh ∉ rows.map (·.id)) :
    StepInv (updateById rows row.id f ++
      [nextRow fresh (row.stepNumber + 1)]) := by
  obtain ⟨hp, hd, hn⟩ := hinv
  have hsplit := active_row_is_last hmem hact hd
  have hstep := last_stepNumber hsplit hp
  refine ⟨?_, ?_, ?_⟩
  · rw [List.map_append, List.length_append,
      map_updateById _ _ _ _ h1, length_updateById]
    simp only [List.map_cons, List.map_nil, List.length_cons, List.length_nil]
    rw [hp, List.range'_1_concat]
    simp [nextRow, hstep, Nat.add_comm]
  · intro r hr
    rw [List.dropLast_concat] at hr
    exact completed_of_mem_updateById hsplit hd hc r hr
  · rw [List.map_append, map_updateById _ _ _ _ h3]
    simp only [List.map_cons, List.map_nil]
    rw [List.nodup_append]
    refine ⟨hn, List.nodup_singleton _, ?_⟩
    intro x hx hx2
    have hxf : x = fresh := by simpa [nextRow] using hx2
    exact hfresh (hxf ▸ hx)

/-! ## Reachable session states -/

/-- States of the orchestrator reachable from the pre-session state through
`startChallenge`, `updateRow`, `submitRow` (both its in-flight `Analyzing`
stage and its settled net effect) and `finishSession`.  A `safeUUID()` draw
is modelled by a `fresh` id not currently in use. -/
inductive Reachable : AppState → Prop where
  | init : Reachable initState
  | start (s : AppState) (c : Challenge) (fresh : Nat) (h : Reachable s) :
      Reachable (startChallenge s c fresh)
  | update (s : AppState) (i : Nat) (content : String) (h : Reachable s) :
      Reachable (updateRow s i content)
  | submitPending (s : AppState) (i : Nat) (h : Reachable s) :
      Reachable (submitRowStart s i)
  | submit (s : AppState) (i fresh : Nat) (apiKey : Option String)
      (call : OpOutcome (Option Analysis)) (h : Reachable s)
      (hfresh : fresh ∉ s.rows.map (·.id)) :
      Reachable (submitRow s i fresh apiKey call).1
  | finish (s : AppState) (apiKey : Option String)
      (call : OpOutcome (Option SessionResult)) (h : Reachable s) :
      Reachable (finishSession s apiKey call)

lemma stepInv_reachable {s : AppState} (h : Reachable s) : StepInv s.rows := by
  induction h with
  | init => exact ⟨rfl, by simp [initState], by simp [initState]⟩
  | start s c fresh _ _ =>
      refine ⟨rfl, ?_, ?_⟩ <;> simp [startChallenge, nextRow]
  | update s i content _ ih =>
      exact stepInv_updateById_preserve ih (fun r => rfl) (fun r => rfl)
        (fun r => rfl)
  | submitPending s i _ ih =>
      unfold submitRowStart
      split
      · rename_i row c hf hc
        split
        · rename_i hact
          have hmem := List.mem_of_find?_eq_some hf
          have hid : row.id = i := by simpa using List.find?_some hf
          have hact' : row.status ≠ RowStatus.Completed := by
            rw [hact]; exact fun hco => nomatch hco
          show StepInv (updateById s.rows i (setStatus .Analyzing))
          rw [← hid]
          exact stepInv_submit_touch ih hmem hact' (fun r => rfl) (fun r => rfl)
        · exact ih
      · exact ih
  | submit s i fresh apiKey call _ hfresh ih =>
      unfold submitRow
      split
      · rename_i row c hf hc
        split
        · rename_i hact
          have hmem := List.mem_of_find?_eq_some hf
          have hid : row.id = i := by simpa using List.find?_some hf
          have hact' : row.status ≠ RowStatus.Completed := by
            rw [hact]; exact fun hco => nomatch hco
          split
          · rename_i analysis heq
            show StepInv
              (updateById (updateById s.rows i (setStatus .Analyzing)) i
                  (completeWith analysis) ++
                [nextRow fresh (row.stepNumber + 1)])
            rw [updateById_updateById s.rows i (setStatus .Analyzing)
                (completeWith analysis) (fun r => rfl), ← hid]
            exact stepInv_submit_ok fresh ih hmem hact' (fun r => rfl)
              (fun r => rfl) (fun r => rfl) hfresh
          · rename_i e heq
            show StepInv
              (updateById (updateById s.rows i (setStatus .Analyzing)) i
                (setStatus .Active))
            rw [updateById_updateById s.rows i (setStatus .Analyzing)
                (setStatus .Active) (fun r => rfl), ← hid]
            exact stepInv_submit_touch ih hmem hact' (fun r => rfl)
              (fun r => rfl)
        · exact ih
      · exact ih
  | finish s apiKey call _ ih =>
      unfold finishSession
      split
      · exact ih
      · split
        · exact ih
        · exact ih

/-! ## Reduction equations for the orchestrator operations -/

lemma submitRow_eq_ok (s : AppState) (row : ReasoningRow) (c : Challenge)
    (analysis : Analysis) (i fresh : Nat) (apiKey : Option String)
    (call : OpOutcome (Option Analysis))
    (hf : s.rows.find? (fun r => r.id = i) = some row)
    (hch : s.activeChallenge = some c)
    (hact : row.status = RowStatus.Active)
    (hok : interrogateRow apiKey call = Except.ok analysis) :
    submitRow s i fresh apiKey call =
      ({ s with rows :=
          (updateById (updateById s.rows i (setStatus .Analyzing)) i
              (completeWith analysis) ++
            [nextRow fresh (row.stepNumber + 1)]) }, true) := by
  simp [submitRow, hf, hch, hact, hok]

lemma submitRow_eq_err (s : AppState) (row : ReasoningRow) (c : Challenge)
    (e : String) (i fresh : Nat) (apiKey : Option String)
    (call : OpOutcome (Option Analysis))
    (hf : s.rows.find? (fun r => r.id = i) = some row)
    (hch : s.activeChallenge = some c)
    (hact : row.status = RowStatus.Active)
    (herr : interrogateRow apiKey call = Except.error e) :
    submitRow s i fresh apiKey call =
      ({ s with rows :=
          (updateById (updateById s.rows i (setStatus .Analyzing)) i
            (setStatus .Active)) }, true) := by
  simp [submitRow, hf, hch, hact, herr]

lemma submitRow_eq_noRow (s : AppState) (i fresh : Nat)
    (apiKey : Option String) (call : OpOutcome (Option Analysis))
    (hf : s.rows.find? (fun r => r.id = i) = none) :
    submitRow s i fresh apiKey call = (s, false) := by
  simp [submitRow, hf]

lemma submitRow_eq_noChallenge (s : AppState) (i fresh : Nat)
    (apiKey : Option String) (call : OpOutcome (Option Analysis))
    (hch : s.activeChallenge = none) :
    submitRow s i fresh apiKey call = (s, false) := by
  rcases hfind : s.rows.find? (fun r => r.id = i) with _ | row <;>
    simp [submitRow, hfind, hch]

lemma submitRow_eq_notActive (s : AppState) (row : ReasoningRow)
    (i fresh : Nat) (apiKey : Option String)
    (call : OpOutcome (Option Analysis))
    (hf : s.rows.find? (fun r => r.id = i) = some row)
    (hact : row.status ≠ RowStatus.Active) :
    submitRow s i fresh apiKey call = (s, false) := by
  rcases hch : s.activeChallenge with _ | c <;>
    simp [submitRow, hf, hch, hact]

lemma submitRowStart_eq (s : AppState) (row : ReasoningRow) (c : Challenge)
    (i : Nat) (hf : s.rows.find? (fun r => r.id = i) = some row)
    (hch : s.activeChallenge = some c)
    (hact : row.status = RowStatus.Active) :
    submitRowStart s i =
      { s with rows := updateById s.rows i (setStatus .Analyzing) } := by
  simp [submitRowStart, hf, hch, hact]

lemma finishSession_eq_err (s : AppState) (c : Challenge) (e : String)
    (apiKey : Option String) (call : OpOutcome (Option SessionResult))
    (hch : s.activeChallenge = some c)
    (herr : evaluateSession apiKey (validRowsOf s.rows) c call =
      Except.error e) :
    finishSession s apiKey call = { s with isLoading := false } := by
  simp [finishSession, hch, herr]

/-! ## Concrete session data used by the witnesses -/

/-- Concrete challenge used to instantiate the theorems. -/
def demoChallenge : Challenge :=
  { id := "d1", title := "Scale a Notification System"
    description := "Design a notification service."
    difficulty := .Senior, context := "High throughput." }

/-- Concrete critique used to instantiate the theorems. -/
def demoAnalysis : Analysis :=
  { text := "Why hash ring over range sharding?", depthScore := 7 }

/-- Critique call that resolves at time 100 with `demoAnalysis`. -/
def demoCall : OpOutcome (Option Analysis) :=
  OpOutcome.resolves 100 (some demoAnalysis)

/-- Session state right after starting `demoChallenge`. -/
def demoStart : AppState := startChallenge initState demoChallenge 0

/-- Session state after submitting step 1 and receiving `demoAnalysis`. -/
def demoState : AppState :=
  (submitRow demoStart 0 1 (some "key") demoCall).1

lemma demoState_reachable : Reachable demoState :=
  Reachable.submit demoStart 0 1 (some "key") demoCall
    (Reachable.start initState demoChallenge 0 Reachable.init) (by decide)

/-! ## Claim C2 -/

/-- C2: every session state reachable through `startChallenge`, `updateRow`,
`submitRow` (including its in-flight `Analyzing` stage) and `finishSession`
has step numbers exactly `1..N` in order, with every step before the last
`Completed` — hence at most one step is in a non-terminal state, and it is
the last one. -/
theorem c2_sequence_invariant (s : AppState) (h : Reachable s) :
    s.rows.map (·.stepNumber) = List.range' 1 s.rows.length
    ∧ (∀ r ∈ s.rows.dropLast, r.status = RowStatus.Completed)
    ∧ (s.rows.filter fun r =>
        !(decide (r.status = RowStatus.Completed))).length ≤ 1 := by
  obtain ⟨hp, hd, _⟩ := stepInv_reachable h
  refine ⟨hp, hd, ?_⟩
  rcases List.eq_nil_or_concat s.rows with hnil | ⟨l, a, hconc⟩
  · simp [hnil]
  · rw [List.concat_eq_append] at hconc
    rw [hconc] at hd ⊢
    rw [List.dropLast_concat] at hd
    rw [List.filter_append]
    have h1 : (l.filter fun r =>
        !(decide (r.status = RowStatus.Completed))) = [] := by
      rw [List.filter_eq_nil_iff]
      intro r hr
      simp [hd r hr]
    rw [h1]
    simpa using List.length_filter_le
      (fun r => !(decide (r.status = RowStatus.Completed))) [a]

/-- Witness for C2 at a concrete two-step session state. -/
theorem c2_sequence_invariant_witness :
    Reachable demoState
    ∧ (demoState.rows.map (·.stepNumber) =
        List.range' 1 demoState.rows.length
      ∧ (∀ r ∈ demoState.rows.dropLast, r.status = RowStatus.Completed)
      ∧ (demoState.rows.filter fun r =>
          !(decide (r.status = RowStatus.Completed))).length ≤ 1) :=
  ⟨demoState_reachable, c2_sequence_invariant demoState demoState_reachable⟩

/-! ## Claim C3 -/

/-- C3: whenever the critique call returns a value (a real response or the
fallback), the submitted step becomes `Completed` with exactly the returned
critique text and depth score attached (content and position untouched),
and exactly one new `Active` row is appended whose sequence position is the
submitted step's position plus one. -/
theorem c3_critique_completes (s : AppState) (row : ReasoningRow)
    (c : Challenge) (analysis : Analysis) (i fresh : Nat)
    (apiKey : Option String) (call : OpOutcome (Option Analysis))
    (hf : s.rows.find? (fun r => r.id = i) = some row)
    (hch : s.activeChallenge = some c)
    (hact : row.status = RowStatus.Active)
    (hok : interrogateRow apiKey call = Except.ok analysis)
    (hnd : (s.rows.map (·.id)).Nodup)
    (hfresh : fresh ∉ s.rows.map (·.id)) :
    (submitRow s i fresh apiKey call).1.rows.length = s.rows.length + 1
    ∧ (∀ r ∈ (submitRow s i fresh apiKey call).1.rows, r.id = i →
        r.status = RowStatus.Completed
        ∧ r.aiInterrogation = some analysis.text
        ∧ r.depthScore = some analysis.depthScore
        ∧ r.content = row.content
        ∧ r.stepNumber = row.stepNumber)
    ∧ (submitRow s i fresh apiKey call).1.rows.getLast? =
        some (nextRow fresh (row.stepNumber + 1)) := by
  have hmem := List.mem_of_find?_eq_some hf
  have hid : row.id = i := by simpa using List.find?_some hf
  have hrows : (submitRow s i fresh apiKey call).1.rows =
      updateById s.rows i
          (fun r => completeWith analysis (setStatus .Analyzing r)) ++
        [nextRow fresh (row.stepNumber + 1)] := by
    rw [submitRow_eq_ok s row c analysis i fresh apiKey call hf hch hact hok,
      updateById_updateById s.rows i (setStatus .Analyzing)
        (completeWith analysis) (fun r => rfl)]
  rw [hrows]
  refine ⟨?_, ?_, ?_⟩
  · simp [length_updateById]
  · intro r hr hri
    rcases List.mem_append.1 hr with hr1 | hr2
    · rcases mem_updateById.1 hr1 with ⟨r0, h0, heq⟩
      by_cases h00 : r0.id = i
      · have hr0 : r0 = row :=
          List.inj_on_of_nodup_map hnd h0 hmem (by rw [h00, hid])
        subst hr0
        rw [← heq, if_pos h00]
        exact ⟨rfl, rfl, rfl, rfl, rfl⟩
      · rw [← heq, if_neg h00] at hri
        exact absurd hri h00
    · have hra : r = nextRow fresh (row.stepNumber + 1) :=
        List.mem_singleton.1 hr2
      rw [hra] at hri
      have hri' : fresh = i := by simpa [nextRow] using hri
      have himem : i ∈ s.rows.map (·.id) := by
        rw [← hid]; exact List.mem_map_of_mem (·.id) hmem
      exact absurd himem (hri' ▸ hfresh)
  · rw [List.getLast?_concat]

/-- Witness for C3: submitting the single open step of a fresh session with
a critique call that resolves to `demoAnalysis`. -/
theorem c3_critique_completes_witness :
    demoStart.rows.find? (fun r => r.id = 0) = some (nextRow 0 1)
    ∧ demoStart.activeChallenge = some demoChallenge
    ∧ (nextRow 0 1).status = RowStatus.Active
    ∧ interrogateRow (some "key") demoCall = Except.ok demoAnalysis
    ∧ (demoStart.rows.map (·.id)).Nodup
    ∧ (1 : Nat) ∉ demoStart.rows.map (·.id)
    ∧ ((submitRow demoStart 0 1 (some "key") demoCall).1.rows.length =
        demoStart.rows.length + 1
      ∧ (∀ r ∈ (submitRow demoStart 0 1 (some "key") demoCall).1.rows,
          r.id = 0 →
          r.status = RowStatus.Completed
          ∧ r.aiInterrogation = some demoAnalysis.text
          ∧ r.depthScore = some demoAnalysis.depthScore
          ∧ r.content = (nextRow 0 1).content
          ∧ r.stepNumber = (nextRow 0 1).stepNumber)
      ∧ (submitRow demoStart 0 1 (some "key") demoCall).1.rows.getLast? =
          some (nextRow 1 ((nextRow 0 1).stepNumber + 1))) :=
  ⟨by decide, rfl, rfl, rfl, by decide, by decide,
    c3_critique_completes demoStart (nextRow 0 1) demoChallenge demoAnalysis
      0 1 (some "key") demoCall (by decide) rfl rfl rfl (by decide)
      (by decide)⟩

/-! ## Claim C4 -/

/-- C4: submitting the open step while its content is blank (empty or
whitespace-only) is a no-op: the submission pathway leaves the state
untouched and never invokes the critique service. -/
theorem c4_blank_submit_noop (s : AppState) (row : ReasoningRow)
    (fresh : Nat) (apiKey : Option String)
    (call : OpOutcome (Option Analysis))
    (hblank : row.content.trim = "") :
    handleKeyDown s row true false fresh apiKey call = (s, false) := by
  simp [handleKeyDown, hblank]

lemma trim_empty : ("" : String).trim = "" := by
  simp only [String.trim, String.toSubstring, Substring.trim]
  rw [Substring.takeWhileAux, Substring.takeRightWhileAux]
  simp [String.endPos, String.utf8ByteSize]
  rfl

/-- Witness for C4: pressing Enter on the blank open step of a fresh
session. -/
theorem c4_blank_submit_noop_witness :
    (nextRow 0 1).content.trim = ""
    ∧ handleKeyDown demoStart (nextRow 0 1) true false 1 (some "key")
        demoCall = (demoStart, false) :=
  ⟨trim_empty,
    c4_blank_submit_noop demoStart (nextRow 0 1) 1 (some "key") demoCall
      trim_empty⟩

/-! ## Claim C5 -/

/-- C5: the Submit Session control is disabled whenever fewer than two
steps are `Completed`, and operable as soon as exactly two steps are
`Completed` (outside the grading phase). -/
theorem c5_finish_gate (s : AppState) :
    ((s.rows.filter fun r => r.status = RowStatus.Completed).length < 2 →
      finishEnabled s = false)
    ∧ (s.isLoading = false →
        (s.rows.filter fun r => r.status = RowStatus.Completed).length = 2 →
        finishEnabled s = true) := by
  constructor
  · intro h
    have h' : ¬ (2 ≤
        (s.rows.filter fun r => r.status = RowStatus.Completed).length) :=
      Nat.not_le.mpr h
    simp [finishEnabled, h']
  · intro h1 h2
    simp [finishEnabled, h1, h2]

/-- Session state with exactly two critiqued steps and an open third one. -/
def gateState : AppState :=
  { activeChallenge := some demoChallenge
    rows :=
      [ { id := 0, stepNumber := 1, content := "use a hash ring"
          aiInterrogation := some "Why a hash ring?"
          status := RowStatus.Completed, depthScore := some 7 }
      , { id := 1, stepNumber := 2, content := "replicate 3x"
          aiInterrogation := some "Why 3 replicas?"
          status := RowStatus.Completed, depthScore := some 6 }
      , nextRow 2 3 ]
    sessionResult := none
    isLoading := false }

/-- Witness for C5: disabled on a fresh one-step session, enabled at two
critiqued steps. -/
theorem c5_finish_gate_witness :
    (demoStart.rows.filter fun r =>
      r.status = RowStatus.Completed).length < 2
    ∧ finishEnabled demoStart = false
    ∧ gateState.isLoading = false
    ∧ (gateState.rows.filter fun r =>
        r.status = RowStatus.Completed).length = 2
    ∧ finishEnabled gateState = true :=
  ⟨by decide, (c5_finish_gate demoStart).1 (by decide), rfl, by decide,
    (c5_finish_gate gateState).2 rfl (by decide)⟩

/-! ## Claim C6 -/

/-- C6: if the critique call rejects outside the timeout wrapper's guard
(client construction failed, e.g. missing API key), the submitted step goes
through the in-flight `Analyzing` state and then reverts to `Active` with
its content preserved and no new step appended — the settled state is
exactly the state before submission. -/
theorem c6_reject_reverts (s : AppState) (row : ReasoningRow)
    (c : Challenge) (e : String) (i fresh : Nat) (apiKey : Option String)
    (call : OpOutcome (Option Analysis))
    (hf : s.rows.find? (fun r => r.id = i) = some row)
    (hch : s.activeChallenge = some c)
    (hact : row.status = RowStatus.Active)
    (herr : interrogateRow apiKey call = Except.error e)
    (hnd : (s.rows.map (·.id)).Nodup) :
    (∀ r ∈ (submitRowStart s i).rows, r.id = i →
      r.status = RowStatus.Analyzing)
    ∧ (submitRow s i fresh apiKey call).1 = s := by
  have hmem := List.mem_of_find?_eq_some hf
  have hid : row.id = i := by simpa using List.find?_some hf
  constructor
  · intro r hr hri
    rw [submitRowStart_eq s row c i hf hch hact] at hr
    rcases mem_updateById.1 hr with ⟨r0, h0, heq⟩
    by_cases h00 : r0.id = i
    · rw [← heq, if_pos h00]; rfl
    · rw [← heq, if_neg h00] at hri
      exact absurd hri h00
  · rw [submitRow_eq_err s row c e i fresh apiKey call hf hch hact herr,
      updateById_updateById s.rows i (setStatus .Analyzing)
        (setStatus .Active) (fun r => rfl)]
    have hrows : updateById s.rows i
        (fun r => setStatus .Active (setStatus .Analyzing r)) = s.rows := by
      have hpt : ∀ r ∈ s.rows,
          (if r.id = i then setStatus .Active (setStatus .Analyzing r)
            else r) = r := by
        intro r hr
        by_cases h00 : r.id = i
        · have hr0 : r = row :=
            List.inj_on_of_nodup_map hnd hr hmem (by rw [h00, hid])
          subst hr0
          rw [if_pos h00]
          cases r with
          | mk a b cc d st e =>
              simp only [setStatus]
              simp_all
        · rw [if_neg h00]
      calc updateById s.rows i
            (fun r => setStatus .Active (setStatus .Analyzing r))
          = s.rows.map fun r => r := List.map_congr_left hpt
        _ = s.rows := List.map_id' s.rows
    rw [hrows]

/-- Witness for C6: submitting the open step of a fresh session with no API
key configured. -/
theorem c6_reject_reverts_witness :
    demoStart.rows.find? (fun r => r.id = 0) = some (nextRow 0 1)
    ∧ demoStart.activeChallenge = some demoChallenge
    ∧ (nextRow 0 1).status = RowStatus.Active
    ∧ interrogateRow none demoCall = Except.error "API Key not found"
    ∧ (demoStart.rows.map (·.id)).Nodup
    ∧ ((∀ r ∈ (submitRowStart demoStart 0).rows, r.id = 0 →
          r.status = RowStatus.Analyzing)
      ∧ (submitRow demoStart 0 1 none demoCall).1 = demoStart) :=
  ⟨by decide, rfl, rfl, rfl, by decide,
    c6_reject_reverts demoStart (nextRow 0 1) demoChallenge
      "API Key not found" 0 1 none demoCall (by decide) rfl rfl rfl
      (by decide)⟩

/-! ## Claim C7 -/

/-- C7 is refuted at this input: with no API key configured,
`evaluateSession` rejects with the construction error instead of returning
the fallback result — the listing/evaluation error handling is asymmetric. -/
theorem c7_counterexample :
    evaluateSession none [] demoChallenge OpOutcome.pending =
      Except.error "API Key not found"
    ∧ evaluateSession none [] demoChallenge OpOutcome.pending ≠
      Except.ok fallbackResult :=
  ⟨rfl, by simp [evaluateSession, getAI]⟩

/-- C7 amended: a construction error during challenge listing is absorbed
into the non-empty hardcoded fallback catalog, and failures inside the
evaluation wrapper (rejection or never settling) yield the fallback
result; but a construction error during evaluation is raised to the
caller, where `finishSession` catches it, leaving the session result and
rows untouched. -/
theorem c7_fallback_paths (rows : List ReasoningRow) (c : Challenge)
    (callL : OpOutcome (Option (List Challenge)))
    (callE : OpOutcome (Option SessionResult)) :
    (getSuggestedChallenges none callL = FALLBACK_CHALLENGES
      ∧ FALLBACK_CHALLENGES ≠ [])
    ∧ evaluateSession none rows c callE = Except.error "API Key not found"
    ∧ (∀ k t, evaluateSession (some k) rows c (OpOutcome.rejects t) =
        Except.ok fallbackResult)
    ∧ (∀ k, evaluateSession (some k) rows c OpOutcome.pending =
        Except.ok fallbackResult)
    ∧ (∀ s : AppState, s.activeChallenge = some c →
        (finishSession s none callE).sessionResult = s.sessionResult
        ∧ (finishSession s none callE).rows = s.rows) := by
  refine ⟨⟨rfl, by simp [FALLBACK_CHALLENGES]⟩, rfl, ?_, ?_, ?_⟩
  · intro k t
    by_cases h : t ≤ 8000 <;>
      simp [evaluateSession, getAI, withTimeoutValue, withTimeout,
        raceEvents, OpOutcome.mapVal, handleEvent, resolveOnce, h]
  · intro k
    simp [evaluateSession, getAI, withTimeoutValue, withTimeout, raceEvents,
      OpOutcome.mapVal, handleEvent, resolveOnce]
  · intro s hch
    rw [finishSession_eq_err s c "API Key not found" none callE hch rfl]
    exact ⟨rfl, rfl⟩

/-- Witness for C7 (amended) at concrete inputs: an in-wrapper rejection
at time 5 yields the fallback result, and a construction error during
finalization leaves the stored result untouched. -/
theorem c7_fallback_paths_witness :
    demoStart.activeChallenge = some demoChallenge
    ∧ evaluateSession (some "key") [] demoChallenge (OpOutcome.rejects 5) =
        Except.ok fallbackResult
    ∧ (finishSession demoStart none OpOutcome.pending).sessionResult =
        demoStart.sessionResult :=
  ⟨rfl,
    (c7_fallback_paths [] demoChallenge OpOutcome.pending
      OpOutcome.pending).2.2.1 "key" 5,
    ((c7_fallback_paths [] demoChallenge OpOutcome.pending
      OpOutcome.pending).2.2.2.2 demoStart rfl).1⟩

/-! ## Claim C8 -/

/-- Graded row used to build a 21-step session. -/
def longRow (n : Nat) : ReasoningRow :=
  { id := n, stepNumber := n, content := "step"
    aiInterrogation := some "why?", status := RowStatus.Completed
    depthScore := some 5 }

/-- Row list of a session with 21 critiqued steps. -/
def longRows : List ReasoningRow :=
  (List.range 21).map fun n => longRow (n + 1)

/-- C8 is refuted at this input: in a session with 21 graded steps, the
transcript rows omit the first graded step — a proper subset is sent. -/
theorem c8_counterexample :
    validRowsOf longRows = longRows
    ∧ longRows.length = 21
    ∧ (transcriptRows (validRowsOf longRows)).length = 20
    ∧ longRow 1 ∈ validRowsOf longRows
    ∧ longRow 1 ∉ transcriptRows (validRowsOf longRows) := by decide

/-- C8 amended: the transcript sent to the evaluator covers a suffix of
the graded rows of length `min N 20` — every graded step when at most 20
are graded, and only the last 20 of a longer session. -/
theorem c8_transcript_window (rows : List ReasoningRow) :
    transcriptRows (validRowsOf rows) <:+ validRowsOf rows
    ∧ (transcriptRows (validRowsOf rows)).length =
        min (validRowsOf rows).length 20
    ∧ ((validRowsOf rows).length ≤ 20 →
        transcriptRows (validRowsOf rows) = validRowsOf rows) := by
  refine ⟨List.drop_suffix _ _, ?_, ?_⟩
  · simp only [transcriptRows, List.length_drop]
    omega
  · intro h
    simp [transcriptRows, Nat.sub_eq_zero_of_le h]

/-- Witness for C8 (amended): a one-step graded session is sent whole. -/
theorem c8_transcript_window_witness :
    (validRowsOf [longRow 1]).length ≤ 20
    ∧ transcriptRows (validRowsOf [longRow 1]) = validRowsOf [longRow 1] :=
  ⟨by decide, (c8_transcript_window [longRow 1]).2.2 (by decide)⟩

/-! ## Claim C9 -/

/-- Concrete critiqued (terminal) step. -/
def critiquedRow : ReasoningRow :=
  { id := 0, stepNumber := 1, content := "original"
    aiInterrogation := some "why?", status := RowStatus.Completed
    depthScore := some 7 }

/-- Session state holding a single critiqued step. -/
def critiquedState : AppState :=
  { activeChallenge := some demoChallenge, rows := [critiquedRow]
    sessionResult := none, isLoading := false }

/-- C9 is refuted at this input: `updateRow` called directly on a
`Completed` step does overwrite its content. -/
theorem c9_counterexample :
    critiquedRow.status = RowStatus.Completed
    ∧ (updateRow critiquedState 0 "overwritten").rows.map (·.content) =
        ["overwritten"]
    ∧ (updateRow critiquedState 0 "overwritten").rows.map (·.content) ≠
        critiquedState.rows.map (·.content) := by decide

/-- C9 amended: `updateRow` itself overwrites content regardless of state;
the read-only behaviour of critiqued steps is enforced one layer up, where
the row's textarea is disabled for any non-editable status so the edit
callback never fires — a UI edit of a `Completed` row leaves the state
unchanged — and `updateRow` never alters any status, position, critique or
score. -/
theorem c9_readonly_via_ui (s : AppState) (row : ReasoningRow)
    (text : String) (i : Nat) (hc : row.status = RowStatus.Completed) :
    uiEditRow s row text = s
    ∧ (updateRow s i text).rows.map (·.status) = s.rows.map (·.status)
    ∧ (updateRow s i text).rows.map (·.stepNumber) =
        s.rows.map (·.stepNumber)
    ∧ (updateRow s i text).rows.map (·.aiInterrogation) =
        s.rows.map (·.aiInterrogation)
    ∧ (updateRow s i text).rows.map (·.depthScore) =
        s.rows.map (·.depthScore) := by
  refine ⟨?_, ?_, ?_, ?_, ?_⟩
  · simp [uiEditRow, isLocked, hc]
  · exact map_updateById (·.status) s.rows i (setContent text) fun r => rfl
  · exact map_updateById (·.stepNumber) s.rows i (setContent text)
      fun r => rfl
  · exact map_updateById (·.aiInterrogation) s.rows i (setContent text)
      fun r => rfl
  · exact map_updateById (·.depthScore) s.rows i (setContent text)
      fun r => rfl

/-- Witness for C9 (amended): a UI edit of the critiqued step is dropped. -/
theorem c9_readonly_via_ui_witness :
    critiquedRow.status = RowStatus.Completed
    ∧ uiEditRow critiquedState critiquedRow "overwritten" =
        critiquedState :=
  ⟨rfl,
    (c9_readonly_via_ui critiquedState critiquedRow "overwritten" 0 rfl).1⟩

/-! ## Claim C10 -/

/-- C10: `updateRow` and `submitRow` with an id matching no step,
`submitRow` with no active challenge, and `submitRow` on a step that is
not `Active` all leave the whole session state unchanged and never invoke
the critique service; being total functions of the model, they return
without throwing. -/
theorem c10_guard_noop (s : AppState) (i fresh : Nat) (text : String)
    (apiKey : Option String) (call : OpOutcome (Option Analysis)) :
    (i ∉ s.rows.map (·.id) →
      updateRow s i text = s
      ∧ submitRow s i fresh apiKey call = (s, false)
      ∧ submitRowStart s i = s)
    ∧ (s.activeChallenge = none →
        submitRow s i fresh apiKey call = (s, false))
    ∧ (∀ row, s.rows.find? (fun r => r.id = i) = some row →
        row.status ≠ RowStatus.Active →
        submitRow s i fresh apiKey call = (s, false)) := by
  refine ⟨?_, ?_, ?_⟩
  · intro h
    have hfind : s.rows.find? (fun r => r.id = i) = none := by
      rw [List.find?_eq_none]
      intro x hx
      simp only [decide_eq_true_eq]
      exact fun he => h (he ▸ List.mem_map_of_mem (·.id) hx)
    refine ⟨?_, submitRow_eq_noRow s i fresh apiKey call hfind, ?_⟩
    · unfold updateRow
      rw [updateById_eq_self s.rows i (setContent text) h]
    · simp [submitRowStart, hfind]
  · intro hch
    exact submitRow_eq_noChallenge s i fresh apiKey call hch
  · intro row hf hact
    exact submitRow_eq_notActive s row i fresh apiKey call hf hact

/-- Witness for C10: an unknown id on a fresh session, a submission with no
challenge selected, and a submission on a critiqued step. -/
theorem c10_guard_noop_witness :
    (99 : Nat) ∉ demoStart.rows.map (·.id)
    ∧ updateRow demoStart 99 "x" = demoStart
    ∧ submitRow demoStart 99 1 (some "key") demoCall = (demoStart, false)
    ∧ initState.activeChallenge = none
    ∧ submitRow initState 0 1 (some "key") demoCall = (initState, false)
    ∧ critiquedState.rows.find? (fun r => r.id = 0) = some critiquedRow
    ∧ critiquedRow.status ≠ RowStatus.Active
    ∧ submitRow critiquedState 0 1 (some "key") demoCall =
        (critiquedState, false) :=
  ⟨by decide,
    ((c10_guard_noop demoStart 99 1 "x" (some "key") demoCall).1
      (by decide)).1,
    ((c10_guard_noop demoStart 99 1 "x" (some "key") demoCall).1
      (by decide)).2.1,
    rfl,
    (c10_guard_noop initState 0 1 "x" (some "key") demoCall).2.1 rfl,
    by decide,
    by decide,
    (c10_guard_noop critiquedState 0 1 "x" (some "key") demoCall).2.2
      critiquedRow (by decide) (by decide)⟩

end DeepThink
